import Mathlib

/-!
Verification of the structured-document codec in convert_elsevier.py
(Consistency-Engine repository).  Python strings are modelled as lists of
characters; Python dicts whose iteration order matters are modelled as
association lists in insertion order; raised ValueError exceptions are
modelled with Except.  All definitions are shallow embeddings of the
functions in src, translated clause by clause.
-/

deriving instance DecidableEq for Except

namespace Elsevier

/-- Python strings, modelled as character lists. -/
abbrev Str := List Char

/-- Shorthand turning a Lean string literal into the model type. -/
def strL (s : String) : Str := s.data

/-- ASCII lower-casing of one character (str.lower on the ASCII inputs used). -/
def lowChar (c : Char) : Char :=
  if 'A' ≤ c ∧ c ≤ 'Z' then Char.ofNat (c.toNat + 32) else c

/-- str.lower. -/
def lowStr (s : Str) : Str := s.map lowChar

/-- Python regex \s character class (ASCII part). -/
def isSpacePy (c : Char) : Bool :=
  c = ' ' ∨ c = '\t' ∨ c = '\n' ∨ c = '\x0d' ∨ c = '\x0b' ∨ c = '\x0c'

/-- ASCII decimal digit. -/
def isDigitPy (c : Char) : Bool := '0' ≤ c ∧ c ≤ '9'

/-- ASCII letter. -/
def isAlphaPy (c : Char) : Bool := ('a' ≤ c ∧ c ≤ 'z') ∨ ('A' ≤ c ∧ c ≤ 'Z')

/-- Python regex \w (ASCII part): letters, digits, underscore. -/
def isWordPy (c : Char) : Bool := isAlphaPy c ∨ isDigitPy c ∨ c = '_'

/-- str.strip(): drop leading and trailing whitespace. -/
def stripStr (s : Str) : Str :=
  ((s.dropWhile isSpacePy).reverse.dropWhile isSpacePy).reverse

/-- Does the list start with the given pattern (case sensitive)? -/
def startsWith (pat s : Str) : Bool :=
  match pat, s with
  | [], _ => true
  | _ :: _, [] => false
  | p :: ps, c :: cs => p = c && startsWith ps cs

/-- Case-insensitive prefix test; the pattern is given in lower case. -/
def startsWithCI (pat s : Str) : Bool :=
  match pat, s with
  | [], _ => true
  | _ :: _, [] => false
  | p :: ps, c :: cs => p = lowChar c && startsWithCI ps cs

/-- Index of the first occurrence of a (non-empty) pattern, str.find style. -/
def findSub (s pat : Str) : Option Nat :=
  match s with
  | [] => if pat = [] then some 0 else none
  | _ :: t => if startsWith pat s then some 0 else
      match findSub t pat with
      | some i => some (i + 1)
      | none => none

/-- Substring containment, Python `pat in s`. -/
def containsSub (s pat : Str) : Bool := (findSub s pat).isSome

/-- str.replace(pat, repl, 1): replace the first occurrence only. -/
def replaceFirst (s pat repl : Str) : Str :=
  match findSub s pat with
  | none => s
  | some i => s.take i ++ repl ++ s.drop (i + pat.length)

/-- Split at the first occurrence of a character: Python s.split(c, 1)
    when the character occurs, none otherwise. -/
def splitAtChar (c : Char) : Str → Option (Str × Str)
  | [] => none
  | x :: xs =>
    if x = c then some ([], xs) else
      match splitAtChar c xs with
      | none => none
      | some (a, b) => some (x :: a, b)

/-- s.split(":", 1)[-1]: the part after the first colon, or the whole string. -/
def afterFirstColon (s : Str) : Str :=
  match splitAtChar ':' s with
  | some (_, b) => b
  | none => s

/-- dict.get on an insertion-ordered mapping with string keys. -/
def mapGet (m : List (Str × Str)) (k : Str) : Option Str :=
  match m with
  | [] => none
  | (a, b) :: t => if a = k then some b else mapGet t k

/-- dict.get on a mapping whose keys may be None (lxml nsmap style). -/
def nsmapGet (m : List (Option Str × Str)) (k : Str) : Option Str :=
  match m with
  | [] => none
  | (a, b) :: t => if a = some k then some b else nsmapGet t k

/-- Qualified internal name: either a bare name or the lxml-style
    brace-qualified form, here kept structurally as uri + local part. -/
inductive QName where
  | plain (n : Str)
  | qual (uri : Str) (loc : Str)
deriving DecidableEq, Repr

/-- Is the qualified name the empty string (Python falsy tag)? -/
def qnameEmpty : QName → Bool
  | .plain [] => true
  | _ => false

/-- Error taxonomy of the converter (all raised as ValueError in Python,
    distinguished by their messages). -/
inductive CErr where
  | unknownPfx (p : Str)
  | unsupportedNodeType (t : Str)
  | missingTag
  | invalidStructuredData (msg : Str)
deriving DecidableEq, Repr

/-- The fixed XML namespace URI (self.XML_NS). -/
def XML_NS : Str := strL "http://www.w3.org/XML/1998/namespace"

/-- self.NSMAP of the Elsevier converter, insertion order preserved;
    the None key is the default namespace. -/
def NSMAP : List (Option Str × Str) :=
  [(none, strL "http://www.elsevier.com/xml/ja/dtd"),
   (some (strL "ce"), strL "http://www.elsevier.com/xml/common/dtd"),
   (some (strL "sa"), strL "http://www.elsevier.com/xml/common/struct-aff/dtd"),
   (some (strL "sb"), strL "http://www.elsevier.com/xml/common/struct-bib/dtd"),
   (some (strL "xlink"), strL "http://www.w3.org/1999/xlink")]

/-- _expand_tag: split at the first colon and look the part before it up in
    the namespace map; no special case for any reserved part. -/
def expandTag (tag : Str) (m : List (Option Str × Str)) : Except CErr QName :=
  match splitAtChar ':' tag with
  | none => .ok (.plain tag)
  | some (p, loc) =>
    match nsmapGet m p with
    | none => .error (.unknownPfx p)
    | some ns => .ok (.qual ns loc)

/-- _expand_attr: like _expand_tag but the reserved xml part maps to the
    fixed XML namespace before any map lookup. -/
def expandAttr (name : Str) (m : List (Option Str × Str)) : Except CErr QName :=
  match splitAtChar ':' name with
  | none => .ok (.plain name)
  | some (p, loc) =>
    if p = strL "xml" then .ok (.qual XML_NS loc) else
      match nsmapGet m p with
      | none => .error (.unknownPfx p)
      | some ns => .ok (.qual ns loc)

/-- Decimal digit character. -/
def digitChar (d : Nat) : Char := Char.ofNat (48 + d)

/-- Decimal digits of a natural number (fuel-based so it reduces). -/
def natDigitsAux : Nat → Nat → Str
  | 0, _ => []
  | fuel + 1, n => if n < 10 then [digitChar n] else natDigitsAux fuel (n / 10) ++ [digitChar (n % 10)]

/-- Decimal representation of a natural number. -/
def natDigits (n : Nat) : Str := natDigitsAux (n + 1) n

/-- Python %04d formatting: zero-pad the decimal form to width four. -/
def pad4 (n : Nat) : Str :=
  let d := natDigits n
  List.replicate (4 - d.length) '0' ++ d

/-- The common-namespace URI used for ce-prefixed elements. -/
def CENS : Str := strL "http://www.elsevier.com/xml/common/dtd"

/-- The xlink namespace URI. -/
def XLINKNS : Str := strL "http://www.w3.org/1999/xlink"

/-- lxml element tree node: an element (with the declarations passed as its
    nsmap, its attributes in insertion order, optional text, children and
    optional tail) or a comment. -/
inductive XNode where
  | elem (tag : QName) (nsm : List (Option Str × Str)) (attrs : List (QName × Str))
      (text : Option Str) (children : List XNode) (tail : Option Str)
  | comm (text : Str) (tail : Option Str)
deriving Repr

/-- Result of matching the caption regex
    (Fig\.|Figure)\s*(\d+)[\.:]?\s*(.*)$ case-insensitively at the start of
    a line: the digit group and the trailing group, in original case. -/
def matchCaption (line : Str) : Option (Str × Str) :=
  let go : Str → Option (Str × Str) := fun rest =>
    let rest2 := rest.dropWhile isSpacePy
    let digits := rest2.takeWhile isDigitPy
    if digits = [] then none else
      let rest3 := rest2.drop digits.length
      let rest4 := match rest3 with
        | c :: t => if c = '.' ∨ c = ':' then t else rest3
        | [] => []
      some (digits, rest4.dropWhile isSpacePy)
  if startsWithCI (strL "fig.") line then go (line.drop 4)
  else if startsWithCI (strL "figure") line then go (line.drop 6)
  else none

/-- The ce:figure element _build_floats creates for the figCount-th caption
    (label, caption with nested simple-para, locator link). -/
def figureNode (figCount : Nat) (figNum : Str) (captionText : Str) : XNode :=
  .elem (.qual CENS (strL "figure")) [] [(.plain (strL "id"), 'f' :: pad4 (5 * figCount))] none
    [ .elem (.qual CENS (strL "label")) [] [] (some (strL "Fig. " ++ figNum)) [] none,
      .elem (.qual CENS (strL "caption")) [] [(.plain (strL "id"), strL "ca" ++ pad4 (5 * figCount))] none
        [ .elem (.qual CENS (strL "simple-para")) [] [(.plain (strL "id"), strL "sp" ++ pad4 (5 * figCount))]
            (some captionText) [] none ] none,
      .elem (.qual CENS (strL "link")) []
        [(.plain (strL "locator"), strL "gr" ++ figNum),
         (.qual XLINKNS (strL "href"), strL "pii:S0960077924011366/gr" ++ figNum)] none [] none ] none

/-- Caption text of _build_floats: group(3).strip() or the fallback. -/
def captionTextOf (figNum g3 : Str) : Str :=
  let ct := stripStr g3
  if ct = [] then strL "Figure " ++ figNum else ct

/-- The loop of _build_floats: walk the lines, counting caption matches. -/
def buildFloatsList : List Str → Nat → List XNode
  | [], _ => []
  | l :: ls, n =>
    match matchCaption l with
    | some (num, g3) => figureNode (n + 1) num (captionTextOf num g3) :: buildFloatsList ls (n + 1)
    | none => buildFloatsList ls n

/-- _build_floats: the ce:floats element holding one figure per caption line. -/
def buildFloats (lines : List Str) : XNode :=
  .elem (.qual CENS (strL "floats")) [] [] none (buildFloatsList lines 0) none

/-- A body section as _build_body accumulates it: its numeric id counter
    value, its optional section-title text and its paragraphs with their
    numeric id counter values. -/
structure BSec where
  sid : Nat
  title : Option Str
  paras : List (Nat × Str)
deriving DecidableEq, Repr

/-- Header test of _build_body: the style name lower-cased starts with
    heading, or the text matches ^\d+\.\s (a maximal digit run, then a dot,
    then a whitespace character). -/
def isHeader (text style : Str) : Bool :=
  startsWithCI (strL "heading") style ||
    (let d := text.takeWhile isDigitPy
     decide (d ≠ []) &&
       match text.drop d.length with
       | '.' :: c :: _ => isSpacePy c
       | _ => false)

/-- Append a paragraph to the most recently created section. -/
def appendPara (secs : List BSec) (pid : Nat) (txt : Str) : List BSec :=
  match secs with
  | [] => []
  | [s] => [{ s with paras := s.paras ++ [(pid, txt)] }]
  | s :: rest => s :: appendPara rest pid txt

/-- One iteration of the _build_body loop after the title-skip test:
    state is (sections so far, sec_idx, para_idx). -/
def bodyStepNS (st : List BSec × Nat × Nat) (p : Str × Str) : List BSec × Nat × Nat :=
  let (secs, si, pi) := st
  if isHeader p.1 p.2 then (secs ++ [⟨si, some p.1, []⟩], si + 10, pi)
  else
    match secs with
    | [] => ([⟨si, none, [(pi, p.1)]⟩], si + 10, pi + 10)
    | _ :: _ => (appendPara secs pi p.1, si, pi + 10)

/-- One iteration of the _build_body loop including the skip of every
    paragraph whose text equals the first paragraph's text. -/
def bodyStep (first : Str) (st : List BSec × Nat × Nat) (p : Str × Str) : List BSec × Nat × Nat :=
  if p.1 = first then st else bodyStepNS st p

/-- _build_body: fold the loop over all (text, style) pairs; counters start
    at 10; the skip compares against the first paragraph's text. -/
def buildBody (ps : List (Str × Str)) : List BSec :=
  match ps with
  | [] => []
  | h :: _ => (ps.foldl (bodyStep h.1) ([], 10, 10)).1

/-- The same fold without the title-skip branch, used to state what the
    skip removes. -/
def bodyNoSkip (ps : List (Str × Str)) : List BSec :=
  (ps.foldl bodyStepNS ([], 10, 10)).1

/-- Render an accumulated section as the element tree _build_body creates:
    section with id s%04d, an st%04d-identified section-title when one was
    set, then the p%04d paragraphs. -/
def secToXNode (s : BSec) : XNode :=
  .elem (.qual CENS (strL "section")) [] [(.plain (strL "id"), 's' :: pad4 s.sid)] none
    ((match s.title with
      | some t => [XNode.elem (.qual CENS (strL "section-title")) []
          [(.plain (strL "id"), strL "st" ++ pad4 s.sid)] (some t) [] none]
      | none => []) ++
     s.paras.map (fun q => XNode.elem (.qual CENS (strL "para")) []
        [(.plain (strL "id"), 'p' :: pad4 q.1)] (some q.2) [] none)) none

/-- Does this element have a ce:section-title child? -/
def hasSectionTitle : XNode → Bool
  | .elem _ _ _ _ children _ =>
    children.any fun c =>
      match c with
      | .elem t _ _ _ _ _ => t = .qual CENS (strL "section-title")
      | _ => false
  | .comm _ _ => false

/-- A section of the t2-variant body loop (no generated ids there). -/
structure TSec where
  title : Option Str
  paras : List Str
deriving DecidableEq, Repr

/-- Append a paragraph to the last section of the t2-variant state. -/
def tAppendPara (secs : List TSec) (txt : Str) : List TSec :=
  match secs with
  | [] => []
  | [s] => [{ s with paras := s.paras ++ [txt] }]
  | s :: rest => s :: tAppendPara rest txt

/-- One iteration of the t2-variant body loop: blank lines are skipped, a
    style whose lower-cased name contains heading opens a titled section,
    other text opens a synthetic Introduction-titled section if none is
    open yet and becomes a paragraph. -/
def t2Step (st : List TSec) (p : Str × Str) : List TSec :=
  let text := stripStr p.1
  if text = [] then st
  else if containsSub (lowStr p.2) (strL "heading") then st ++ [⟨some text, []⟩]
  else
    match st with
    | [] => [⟨some (strL "Introduction"), [text]⟩]
    | _ :: _ => tAppendPara st text

/-- The t2-variant convert body phase: fold over the paragraphs after the
    first, then give every paragraph-less section a filler paragraph. -/
def t2Body (ps : List (Str × Str)) : List TSec :=
  ((ps.drop 1).foldl t2Step []).map fun s =>
    if s.paras = [] then { s with paras := [strL "Content pending."] } else s

/-- Invariant of the _build_body loop state: the next section counter and
    every stored section id follow the by-tens numbering. -/
def SidOk (secs : List BSec) (si : Nat) : Prop :=
  si = 10 * secs.length + 10 ∧
    ∀ i (hi : i < secs.length), secs[i].sid = 10 * i + 10

/-- Titles invariant: every section after the first carries a title. -/
def TitleOk (secs : List BSec) : Prop :=
  ∀ i (hi : i < secs.length), 1 ≤ i → (secs[i].title).isSome = true

/-- The scenario of claim C2: title, numbered header, body line, caption. -/
def c2Scenario : List (Str × Str) :=
  [(strL "Title", strL "Title"), (strL "1. Introduction", strL "Normal"),
   (strL "Some text.", strL "Normal"), (strL "Fig. 2: Sample image", strL "Caption")]

/-- The section element the scenario of claim C2 actually produces. -/
def c2SectionX : XNode :=
  .elem (.qual CENS (strL "section")) [] [(.plain (strL "id"), strL "s0010")] none
    [ .elem (.qual CENS (strL "section-title")) [] [(.plain (strL "id"), strL "st0010")]
        (some (strL "1. Introduction")) [] none,
      .elem (.qual CENS (strL "para")) [] [(.plain (strL "id"), strL "p0010")]
        (some (strL "Some text.")) [] none,
      .elem (.qual CENS (strL "para")) [] [(.plain (strL "id"), strL "p0020")]
        (some (strL "Fig. 2: Sample image")) [] none ] none

/-- The floats element the scenario of claim C2 actually produces. -/
def c2FloatsX : XNode :=
  .elem (.qual CENS (strL "floats")) [] [] none
    [ .elem (.qual CENS (strL "figure")) [] [(.plain (strL "id"), strL "f0005")] none
        [ .elem (.qual CENS (strL "label")) [] [] (some (strL "Fig. 2")) [] none,
          .elem (.qual CENS (strL "caption")) [] [(.plain (strL "id"), strL "ca0005")] none
            [ .elem (.qual CENS (strL "simple-para")) [] [(.plain (strL "id"), strL "sp0005")]
                (some (strL "Sample image")) [] none ] none,
          .elem (.qual CENS (strL "link")) []
            [(.plain (strL "locator"), strL "gr2"),
             (.qual XLINKNS (strL "href"), strL "pii:S0960077924011366/gr2")] none [] none ] none ] none

/-- The input for the claim C4 counterexample: a title, then body text
    before any header. -/
def c4Input : List (Str × Str) := [(strL "T", strL "Title"), (strL "x", strL "Normal")]

/-- A sequence producing a synthetic section followed by a header section. -/
def c4W1 : List (Str × Str) :=
  [(strL "T", strL "t"), (strL "a", strL "Normal"), (strL "1. B", strL "Normal")]

/-- Concrete paragraphs for the claim C5 witness. -/
def c5Wps : List (Str × Str) := [(strL "T", strL "t"), (strL "1. A", strL "Normal")]

/-- Concrete lines for the claim C5 witness. -/
def c5Wlines : List Str := [strL "Fig. 7: x"]

/-- A structured-data node as read from the JSON record: the dict keys
    type, tag, attrs, text, children and tail, each possibly absent. -/
inductive SNode where
  | mk (ntype : Option Str) (tag : Option Str) (attrs : List (Str × Str))
      (text : Option Str) (children : List SNode) (tail : Option Str)
deriving Repr

/-- node.get of the tag key with a default. -/
def SNode.tagD (n : SNode) (d : Str) : Str :=
  match n with
  | .mk _ tag _ _ _ _ => tag.getD d

/-- The JSON value found under the article key of the record. -/
inductive JArt where
  | jstr (s : Str)
  | jobj (n : SNode)
  | jother
deriving Repr

/-- Is the article value a JSON object? -/
def isObjArt : JArt → Bool
  | .jobj _ => true
  | _ => false

/-- The top-level structured-data record with its optional keys. -/
structure SData where
  article : JArt
  use_namespaces : Option Bool := none
  namespaces : Option (List (Str × Str)) := none
  strip_namespaces : Option Bool := none
  xml_declaration : Option Str := none
  doctype : Option Str := none
  xml_decl_suffix : Option Str := none
  doctype_suffix : Option Str := none
deriving Repr

/-- The two ValueError messages of _convert_from_structured_data. -/
def msgTemplate : Str :=
  strL "Template usage is disabled. Provide structured data under 'article' so XML can be built programmatically."

/-- The message for a missing or non-object article value. -/
def msgInvalidArticle : Str := strL "Structured data missing or invalid 'article' object."

/-- element.set semantics: overwrite an existing attribute in place, else
    append at the end. -/
def setAttr (l : List (QName × Str)) (k : QName) (v : Str) : List (QName × Str) :=
  match l with
  | [] => [(k, v)]
  | (a, b) :: t => if a = k then (k, v) :: t else (a, b) :: setAttr t k v

/-- The attribute loop of _build_element: expand each name when namespaces
    are in use and set it on the element. -/
def expandAttrsF (useNs : Bool) (lookup : List (Option Str × Str)) :
    List (Str × Str) → List (QName × Str) → Except CErr (List (QName × Str))
  | [], acc => .ok acc
  | (k, v) :: t, acc =>
    match (if useNs then expandAttr k lookup else .ok (.plain k)) with
    | .error e => .error e
    | .ok q => expandAttrsF useNs lookup t (setAttr acc q v)

/-- The nsmap passed to the root element: the override map with its default
    key turned into the default namespace, else the fixed NSMAP. -/
def rootNsmapOf (nsOv : Option (List (Str × Str))) : List (Option Str × Str) :=
  match nsOv with
  | some m => m.map fun kv => (if kv.1 = strL "default" then none else some kv.1, kv.2)
  | none => NSMAP

mutual

/-- _build_element: comments pass through, a non-element non-comment type
    is rejected, tags and attribute names are expanded against the active
    lookup map, the root carries the effective nsmap, and children are
    built recursively with errors propagating immediately. -/
def buildElement : SNode → Bool → Bool → Option (List (Str × Str)) → Except CErr XNode
  | .mk ntype tag attrs text children tail, isRoot, useNs, nsOv =>
    let nt := ntype.getD (strL "element")
    if nt = strL "comment" then .ok (.comm (text.getD []) tail)
    else if nt ≠ strL "element" then .error (.unsupportedNodeType nt)
    else
      let lookup := match nsOv with
        | some m => m.map fun kv => (some kv.1, kv.2)
        | none => NSMAP
      let tag0 := tag.getD []
      match (if useNs then expandTag tag0 lookup else .ok (.plain tag0)) with
      | .error e => .error e
      | .ok tq =>
        if qnameEmpty tq then .error .missingTag
        else
          let nsm := if isRoot && useNs then rootNsmapOf nsOv else []
          match expandAttrsF useNs lookup attrs [] with
          | .error e => .error e
          | .ok aq =>
            match buildChildren children useNs nsOv with
            | .error e => .error e
            | .ok cs => .ok (.elem tq nsm aq text cs tail)

/-- The child loop of _build_element. -/
def buildChildren : List SNode → Bool → Option (List (Str × Str)) → Except CErr (List XNode)
  | [], _, _ => .ok []
  | c :: cs, useNs, nsOv =>
    match buildElement c false useNs nsOv with
    | .error e => .error e
    | .ok x =>
      match buildChildren cs useNs nsOv with
      | .error e => .error e
      | .ok xs => .ok (x :: xs)

end

/-- Serialization escaping of text and tail content (libxml2 rules). -/
def escTextChar (c : Char) : Str :=
  if c = '&' then strL "&amp;"
  else if c = '<' then strL "&lt;"
  else if c = '>' then strL "&gt;"
  else if c = '\x0d' then strL "&#13;"
  else [c]

/-- Escape a text run. -/
def escText (s : Str) : Str := (s.map escTextChar).flatten

/-- Serialization escaping inside attribute values (libxml2 rules). -/
def escAttrChar (c : Char) : Str :=
  if c = '&' then strL "&amp;"
  else if c = '<' then strL "&lt;"
  else if c = '>' then strL "&gt;"
  else if c = '"' then strL "&quot;"
  else if c = '\n' then strL "&#10;"
  else if c = '\t' then strL "&#9;"
  else if c = '\x0d' then strL "&#13;"
  else [c]

/-- Escape an attribute value. -/
def escAttr (s : Str) : Str := (s.map escAttrChar).flatten

/-- First declaration entry for a URI, searching the innermost scope first. -/
def findPfxForUri : List (Option Str × Str) → Str → Option (Option Str)
  | [], _ => none
  | (k, u) :: t, uri => if u = uri then some k else findPfxForUri t uri

/-- Render a qualified name against the declarations in scope: the fixed
    XML namespace is implicitly bound to xml; a URI with no declaration
    gets the libxml2 fallback generated name. -/
def resolveQ (env : List (Option Str × Str)) : QName → Str
  | .plain n => n
  | .qual uri loc =>
    if uri = XML_NS then strL "xml:" ++ loc
    else
      match findPfxForUri env uri with
      | some none => loc
      | some (some p) => p ++ ':' :: loc
      | none => strL "ns0:" ++ loc

/-- One serialized namespace declaration. -/
def serNsDecl (kv : Option Str × Str) : Str :=
  match kv.1 with
  | none => strL " xmlns=\"" ++ kv.2 ++ ['"']
  | some p => strL " xmlns:" ++ p ++ strL "=\"" ++ kv.2 ++ ['"']

mutual

/-- etree.tostring without pretty-printing and without a declaration:
    namespace declarations first, then attributes; an element with no text
    and no children self-closes; text, tails and attribute values are
    escaped; comments are emitted verbatim. -/
def serNode : List (Option Str × Str) → XNode → Str
  | _, .comm t tail => strL "<!--" ++ t ++ strL "-->" ++ escText (tail.getD [])
  | env, .elem tag nsm attrs text children tail =>
    let env2 := nsm ++ env
    let name := resolveQ env2 tag
    let decls := (nsm.map serNsDecl).flatten
    let ats := (attrs.map fun kv =>
      ' ' :: (resolveQ env2 kv.1 ++ ('=' :: '"' :: (escAttr kv.2 ++ ['"'])))).flatten
    match text, children with
    | none, [] => '<' :: (name ++ decls ++ ats ++ strL "/>") ++ escText (tail.getD [])
    | _, _ =>
      '<' :: (name ++ decls ++ ats ++ ['>']) ++ escText (text.getD []) ++
        serChildren env2 children ++
        strL "</" ++ name ++ ['>'] ++ escText (tail.getD [])

/-- Serialize a child list in order. -/
def serChildren : List (Option Str × Str) → List XNode → Str
  | _, [] => []
  | env, c :: cs => serNode env c ++ serChildren env cs

end

/-- The re.search for the root start tag in _strip_root_xmlns: first
    position where < root-tag is followed by a non-word boundary and a
    closing angle bracket can be reached without crossing one. -/
def findStartTagAux : Str → Str → Option Str
  | [], _ => none
  | c :: rest, rootTag =>
    let s := c :: rest
    let pat := '<' :: rootTag
    if startsWith pat s then
      match s.drop pat.length with
      | [] => none
      | a :: after =>
        if isWordPy a then findStartTagAux rest rootTag
        else
          let inside := (a :: after).takeWhile fun x => !(x == '>')
          if inside.length < (a :: after).length then some (pat ++ inside ++ ['>'])
          else findStartTagAux rest rootTag
    else findStartTagAux rest rootTag

/-- The re.sub deleting every whitespace-led xmlns or xmlns:pfx attribute,
    with its double-quoted value, inside the matched start tag. -/
def stripXmlnsAux : Nat → Str → Str
  | 0, s => s
  | fuel + 1, s =>
    match s with
    | [] => []
    | c :: rest =>
      if isSpacePy c ∧ startsWith (strL "xmlns") rest then
        let after := rest.drop 5
        let afterOpt : Option Str :=
          match after with
          | ':' :: r2 =>
            let w := r2.takeWhile isWordPy
            if w = [] then none else some (r2.drop w.length)
          | _ => some after
        match afterOpt with
        | none => c :: stripXmlnsAux fuel rest
        | some a2 =>
          match a2 with
          | '=' :: '"' :: r3 =>
            let v := r3.takeWhile fun x => !(x == '"')
            match r3.drop v.length with
            | '"' :: r4 => stripXmlnsAux fuel r4
            | _ => c :: stripXmlnsAux fuel rest
          | _ => c :: stripXmlnsAux fuel rest
      else c :: stripXmlnsAux fuel rest

/-- _strip_root_xmlns: find the root start tag, delete its namespace
    declarations, and substitute the result for the first occurrence. -/
def stripRootXmlns (xml rootTag : Str) : Str :=
  match findStartTagAux xml rootTag with
  | none => xml
  | some startTag => replaceFirst xml startTag (stripXmlnsAux (startTag.length + 1) startTag)

/-- _convert_from_structured_data: reject a non-object article, build the
    root, serialize it, optionally strip the root namespace declarations,
    and assemble declaration, doctype and body. -/
def convertFromStructuredData (d : SData) : Except CErr Str :=
  match d.article with
  | .jstr _ => .error (.invalidStructuredData msgTemplate)
  | .jother => .error (.invalidStructuredData msgInvalidArticle)
  | .jobj article =>
    let useNs := d.use_namespaces.getD true
    let strip := d.strip_namespaces.getD false
    match buildElement article true useNs d.namespaces with
    | .error e => .error e
    | .ok root =>
      let xmlStr := serNode [] root
      let xmlStr2 :=
        if strip then stripRootXmlns xmlStr (afterFirstColon (article.tagD (strL "article")))
        else xmlStr
      .ok ((if d.xml_declaration.getD [] ≠ [] then
              d.xml_declaration.getD [] ++ d.xml_decl_suffix.getD [] else []) ++
           (if d.doctype.getD [] ≠ [] then d.doctype.getD [] ++ d.doctype_suffix.getD [] else []) ++
           xmlStr2)

/-- The five-segment assembly exactly as claim C8 words it: declaration,
    decl-suffix, doctype, doctype-suffix and body each contribute their
    value unconditionally. -/
def claimAssembly (d : SData) (body : Str) : Str :=
  d.xml_declaration.getD [] ++ d.xml_decl_suffix.getD [] ++
    d.doctype.getD [] ++ d.doctype_suffix.getD [] ++ body

/-- The assembly as amended: each suffix rides with its leading segment and
    is dropped when that segment is empty. -/
def fixedAssembly (d : SData) (body : Str) : Str :=
  (if d.xml_declaration.getD [] ≠ [] then
     d.xml_declaration.getD [] ++ d.xml_decl_suffix.getD [] else []) ++
  (if d.doctype.getD [] ≠ [] then d.doctype.getD [] ++ d.doctype_suffix.getD [] else []) ++ body

/-- The body text convert produces from a successfully built root. -/
def bodyTextOf (d : SData) (a : SNode) (root : XNode) : Str :=
  if d.strip_namespaces.getD false then
    stripRootXmlns (serNode [] root) (afterFirstColon (a.tagD (strL "article")))
  else serNode [] root

/-- A templated (string-valued) article record. -/
def c6Data : SData := { article := .jstr (strL "<article>TEMPLATE</article>") }

/-- The record of the claim C8 counterexample: empty declaration but a
    non-empty declaration suffix. -/
def c8Data : SData :=
  { article := .jobj (.mk none (some (strL "a")) [] (some (strL "x")) [] none),
    use_namespaces := some false,
    doctype := some (strL "<!DOCTYPE a>"),
    xml_decl_suffix := some (strL "\n") }

/-- The article node of the claim C8 record. -/
def c8Article : SNode := .mk none (some (strL "a")) [] (some (strL "x")) [] none

/-- The built root of the claim C8 record. -/
def c8Root : XNode := .elem (.plain (strL "a")) [] [] (some (strL "x")) [] none

/-- The regex match at position zero of an XML declaration: <?xml, a run of
    characters other than a closing angle bracket ending in a question
    mark, then the closing angle bracket. -/
def matchXmlDecl (s : Str) : Option Str :=
  if startsWith (strL "<?xml") s then
    let rest := s.drop 5
    let mid := rest.takeWhile fun c => !(c == '>')
    match rest.drop mid.length with
    | '>' :: _ => if mid.getLast? = some '?' then some (strL "<?xml" ++ mid ++ ['>']) else none
    | _ => none
  else none

/-- The lazy DOCTYPE regex: the first DOCTYPE opening, extended to the
    first subsequent internal-subset closing; returns start index and the
    matched text. -/
def matchDoctype (s : Str) : Option (Nat × Str) :=
  match findSub s (strL "<!DOCTYPE") with
  | none => none
  | some i =>
    let after := s.drop (i + 9)
    match findSub after (strL "]>") with
    | none => none
    | some j => some (i, strL "<!DOCTYPE" ++ after.take (j + 2))

/-- _extract_decl_doctype: capture declaration, doctype and the two
    whitespace suffixes, then delete the first occurrence of each non-empty
    capture from the text to obtain the parseable body. -/
def extractDeclDoctype (x : Str) : Str × Str × Str × Str × Str :=
  let xmlDecl := (matchXmlDecl x).getD []
  let dtm := matchDoctype x
  let doctype := match dtm with
    | some (_, d) => d
    | none => []
  let declSuf := match matchXmlDecl x, dtm with
    | some d, some (i, _) => (x.drop d.length).take (i - d.length)
    | _, _ => []
  let dtSuf := match dtm with
    | some (i, d) =>
      let afterDt := x.drop (i + d.length)
      match findSub afterDt (strL "<") with
      | some k => afterDt.take k
      | none => afterDt
    | none => []
  let p1 := if xmlDecl ≠ [] then replaceFirst x xmlDecl [] else x
  let p2 := if doctype ≠ [] then replaceFirst p1 doctype [] else p1
  let p3 := if declSuf ≠ [] then replaceFirst p2 declSuf [] else p2
  let p4 := if dtSuf ≠ [] then replaceFirst p3 dtSuf [] else p3
  (xmlDecl, doctype, declSuf, dtSuf, p4)

/-- First character class of the prefix-scan regex group. -/
def pfxStartChar (c : Char) : Bool := isAlphaPy c ∨ c = '_'

/-- Continuation class of the prefix-scan regex group: word characters,
    dot and hyphen. -/
def pfxRestChar (c : Char) : Bool := isWordPy c ∨ c = '.' ∨ c = '-'

/-- The finditer walk of the prefix-scan regex: a candidate name preceded
    by an opening bracket, a closing-tag opening or whitespace, followed by
    a colon and a name-start character; the xml prefix is not collected;
    first-found order, duplicates dropped. -/
def scanPfxAux : Nat → Str → Option Char → Option Char → List Str → List Str
  | 0, _, _, _, acc => acc
  | _ + 1, [], _, _, acc => acc
  | fuel + 1, c :: rest, prev, prev2, acc =>
    let behindOk :=
      match prev with
      | some '<' => true
      | some '/' => prev2 = some '<'
      | some p => isSpacePy p
      | none => false
    if behindOk && pfxStartChar c then
      let g1rest := rest.takeWhile pfxRestChar
      let g1 := c :: g1rest
      match rest.drop g1rest.length with
      | ':' :: d :: after =>
        if pfxStartChar d then
          scanPfxAux fuel after (some d) (some ':')
            (if g1 = strL "xml" ∨ g1 ∈ acc then acc else acc ++ [g1])
        else scanPfxAux fuel rest (some c) prev acc
      | _ => scanPfxAux fuel rest (some c) prev acc
    else scanPfxAux fuel rest (some c) prev acc

/-- Lexicographic comparison of character lists (Python string order). -/
def strLt : Str → Str → Bool
  | [], [] => false
  | [], _ :: _ => true
  | _ :: _, [] => false
  | a :: as, b :: bs => if a = b then strLt as bs else decide (a < b)

/-- Insertion into a sorted list. -/
def insertSorted (x : Str) (l : List Str) : List Str :=
  match l with
  | [] => [x]
  | y :: t => if strLt x y then x :: y :: t else y :: insertSorted x t

/-- Python sorted on a list of strings. -/
def sortStrs (l : List Str) : List Str := l.foldr insertSorted []

/-- The prefix set of generate_structured_json_from_xml, sorted. -/
def scanPrefixes (s : Str) : List Str := sortStrs (scanPfxAux (s.length + 1) s none none [])

/-- The temporary declarations injected for the scanned prefixes. -/
def nsAttrsOf (ps : List Str) : Str :=
  (ps.map fun p => strL " xmlns:" ++ p ++ strL "=\"urn:tmp:" ++ p ++ ['"']).flatten

/-- The first substitution: <article followed by a whitespace character
    gets the declarations spliced in before that whitespace. -/
def subArticleWs : Str → Str → Str
  | [], _ => []
  | c :: rest, nsAttrs =>
    if startsWith (strL "<article") (c :: rest) then
      match (c :: rest).drop 8 with
      | w :: after =>
        if isSpacePy w then strL "<article" ++ nsAttrs ++ (w :: after)
        else c :: subArticleWs rest nsAttrs
      | [] => c :: subArticleWs rest nsAttrs
    else c :: subArticleWs rest nsAttrs

/-- The second substitution: a bare <article> start tag. -/
def subArticleGt : Str → Str → Str
  | [], _ => []
  | c :: rest, nsAttrs =>
    if startsWith (strL "<article>") (c :: rest) then
      strL "<article" ++ nsAttrs ++ '>' :: ((c :: rest).drop 9)
    else c :: subArticleGt rest nsAttrs

/-- The conditional injection of the temporary declarations into the root
    start tag, both substitutions applied in order with count one. -/
def injectArticle (s nsAttrs : Str) : Str :=
  if containsSub s (strL "<article") then subArticleGt (subArticleWs s nsAttrs) nsAttrs
  else s

/-- Value of a run of decimal digits. -/
def decVal (d : Str) : Nat := d.foldl (fun a c => a * 10 + (c.toNat - 48)) 0

/-- Value of one hexadecimal digit character. -/
def hexDigVal (c : Char) : Nat :=
  if isDigitPy c then c.toNat - 48
  else if 'a' ≤ c ∧ c ≤ 'f' then c.toNat - 87
  else c.toNat - 55

/-- Hexadecimal digit test. -/
def isHexPy (c : Char) : Bool :=
  isDigitPy c ∨ ('a' ≤ c ∧ c ≤ 'f') ∨ ('A' ≤ c ∧ c ≤ 'F')

/-- Entity decoding after an ampersand: the five predefined entities and
    numeric character references resolve; anything else is a fatal parse
    error with entity resolution disabled and no DTD loaded. -/
def decodeEntity (s : Str) : Option (Char × Str) :=
  if startsWith (strL "amp;") s then some ('&', s.drop 4)
  else if startsWith (strL "lt;") s then some ('<', s.drop 3)
  else if startsWith (strL "gt;") s then some ('>', s.drop 3)
  else if startsWith (strL "quot;") s then some ('"', s.drop 5)
  else if startsWith (strL "apos;") s then some (Char.ofNat 39, s.drop 5)
  else
    match s with
    | '#' :: 'x' :: rest =>
      let d := rest.takeWhile isHexPy
      if d = [] then none else
        match rest.drop d.length with
        | ';' :: r2 => some (Char.ofNat (d.foldl (fun a c => a * 16 + hexDigVal c) 0), r2)
        | _ => none
    | '#' :: rest =>
      let d := rest.takeWhile isDigitPy
      if d = [] then none else
        match rest.drop d.length with
        | ';' :: r2 => some (Char.ofNat (decVal d), r2)
        | _ => none
    | _ => none

/-- Parse a text run up to the next markup opening or the end of input,
    decoding entity references. -/
def pText : Nat → Str → Option (Str × Str)
  | 0, _ => none
  | fuel + 1, s =>
    match s with
    | [] => some ([], [])
    | '<' :: _ => some ([], s)
    | '&' :: rest =>
      match decodeEntity rest with
      | none => none
      | some (ch, r2) =>
        match pText fuel r2 with
        | none => none
        | some (t, r) => some (ch :: t, r)
    | c :: rest =>
      match pText fuel rest with
      | none => none
      | some (t, r) => some (c :: t, r)

/-- Parse an attribute value up to the matching quote, decoding entities;
    a raw opening angle bracket is illegal. -/
def pAttrValue : Nat → Str → Char → Option (Str × Str)
  | 0, _, _ => none
  | fuel + 1, s, q =>
    match s with
    | [] => none
    | c :: rest =>
      if c = q then some ([], rest)
      else if c = '<' then none
      else if c = '&' then
        match decodeEntity rest with
        | none => none
        | some (ch, r2) =>
          match pAttrValue fuel r2 q with
          | none => none
          | some (v, r) => some (ch :: v, r)
      else
        match pAttrValue fuel rest q with
        | none => none
        | some (v, r) => some (c :: v, r)

/-- XML name start characters (ASCII fragment used here). -/
def xNameStart (c : Char) : Bool := isAlphaPy c ∨ c = '_' ∨ c = ':'

/-- XML name characters (ASCII fragment used here). -/
def xNameChar (c : Char) : Bool := xNameStart c ∨ isDigitPy c ∨ c = '.' ∨ c = '-'

/-- Parse an XML name. -/
def pName (s : Str) : Option (Str × Str) :=
  match s with
  | [] => none
  | c :: rest =>
    if xNameStart c then some (c :: rest.takeWhile xNameChar, rest.drop (rest.takeWhile xNameChar).length)
    else none

/-- Parse the attribute list of a start tag, stopping before the closing
    markup; a repeated attribute name is a fatal well-formedness error. -/
def pAttrs : Nat → Str → List (Str × Str) → Option (List (Str × Str) × Str)
  | 0, _, _ => none
  | fuel + 1, s, acc =>
    let s1 := s.dropWhile isSpacePy
    if startsWith (strL "/>") s1 ∨ startsWith (strL ">") s1 then some (acc, s1)
    else
      match pName s1 with
      | none => none
      | some (n, r1) =>
        if acc.any fun kv => kv.1 = n then none
        else
          match r1.dropWhile isSpacePy with
          | '=' :: r3 =>
            match r3.dropWhile isSpacePy with
            | q :: r5 =>
              if q = '"' ∨ q = Char.ofNat 39 then
                match pAttrValue (r5.length + 1) r5 q with
                | none => none
                | some (v, r6) => pAttrs fuel r6 (acc ++ [(n, v)])
              else none
            | [] => none
          | _ => none

/-- Split raw attributes into prefixed namespace declarations, a default
    namespace declaration and ordinary attributes, in document order. -/
def splitDecls (attrs : List (Str × Str)) : List (Str × Str) × Option Str × List (Str × Str) :=
  attrs.foldl
    (fun st nv =>
      if nv.1 = strL "xmlns" then (st.1, some nv.2, st.2.2)
      else if startsWith (strL "xmlns:") nv.1 then (st.1 ++ [(nv.1.drop 6, nv.2)], st.2.1, st.2.2)
      else (st.1, st.2.1, st.2.2 ++ [nv]))
    ([], none, [])

/-- Resolve a parsed raw name against the declarations in scope, as lxml
    stores names: the xml prefix is implicitly bound, an undeclared prefix
    is fatal, unprefixed attribute names stay plain while unprefixed
    element names take the default namespace. -/
def resolveParsedName (isAttr : Bool) (pfxMap : List (Str × Str)) (defNs : Option Str)
    (n : Str) : Option QName :=
  match splitAtChar ':' n with
  | some (p, loc) =>
    if p = strL "xml" then some (.qual XML_NS loc)
    else
      match mapGet pfxMap p with
      | some u => some (.qual u loc)
      | none => none
  | none =>
    if isAttr then some (.plain n)
    else
      match defNs with
      | some u => some (.qual u n)
      | none => some (.plain n)

/-- Resolve every ordinary attribute name. -/
def resolveAttrList (pfxMap : List (Str × Str)) (defNs : Option Str) :
    List (Str × Str) → Option (List (QName × Str))
  | [] => some []
  | (n, v) :: t =>
    match resolveParsedName true pfxMap defNs n with
    | none => none
    | some q =>
      match resolveAttrList pfxMap defNs t with
      | none => none
      | some rest => some ((q, v) :: rest)

/-- Attach a tail text to a parsed node. -/
def setTail (n : XNode) (t : Option Str) : XNode :=
  match n with
  | .elem tag nsm attrs text children _ => .elem tag nsm attrs text children t
  | .comm c _ => .comm c t

mutual

/-- Parse one element: start tag with attributes, namespace declarations
    taken into scope and stripped from the attribute list, then either a
    self-closing tag or content followed by the matching end tag. -/
def pElement : Nat → List (Str × Str) × Option Str → Str → Option (XNode × Str)
  | 0, _, _ => none
  | fuel + 1, env, s =>
    match s with
    | '<' :: s1 =>
      match pName s1 with
      | none => none
      | some (name, r1) =>
        match pAttrs (r1.length + 1) r1 [] with
        | none => none
        | some (rawAttrs, r2) =>
          let (decls, dflt, plain) := splitDecls rawAttrs
          let pfxMap := decls ++ env.1
          let defNs := match dflt with
            | some u => some u
            | none => env.2
          match resolveParsedName false pfxMap defNs name with
          | none => none
          | some tq =>
            match resolveAttrList pfxMap defNs plain with
            | none => none
            | some aq =>
              if startsWith (strL "/>") r2 then
                some (.elem tq [] aq none [] none, r2.drop 2)
              else
                match r2 with
                | '>' :: r3 =>
                  match pContent fuel (pfxMap, defNs) r3 with
                  | none => none
                  | some (text, children, r4) =>
                    if startsWith (strL "</" ++ name) r4 then
                      match (r4.drop (name.length + 2)).dropWhile isSpacePy with
                      | '>' :: r5 => some (.elem tq [] aq text children none, r5)
                      | _ => none
                    else none
                | _ => none
    | _ => none

/-- Parse element content: the leading text run, then the children. -/
def pContent : Nat → List (Str × Str) × Option Str → Str →
    Option (Option Str × List XNode × Str)
  | 0, _, _ => none
  | fuel + 1, env, s =>
    match pText (s.length + 1) s with
    | none => none
    | some (t0, r0) =>
      match pChildren fuel env r0 with
      | none => none
      | some (cs, r) => some ((if t0 = [] then none else some t0), cs, r)

/-- Parse the child sequence up to the enclosing end tag, attaching the
    following text run to each child as its tail. -/
def pChildren : Nat → List (Str × Str) × Option Str → Str → Option (List XNode × Str)
  | 0, _, _ => none
  | fuel + 1, env, s =>
    if startsWith (strL "</") s then some ([], s)
    else if startsWith (strL "<!--") s then
      match findSub (s.drop 4) (strL "-->") with
      | none => none
      | some k =>
        let ctext := (s.drop 4).take k
        let r1 := (s.drop 4).drop (k + 3)
        match pText (r1.length + 1) r1 with
        | none => none
        | some (tl, r2) =>
          match pChildren fuel env r2 with
          | none => none
          | some (cs, r) =>
            some (XNode.comm ctext (if tl = [] then none else some tl) :: cs, r)
    else if startsWith (strL "<") s then
      match pElement fuel env s with
      | none => none
      | some (node, r1) =>
        match pText (r1.length + 1) r1 with
        | none => none
        | some (tl, r2) =>
          match pChildren fuel env r2 with
          | none => none
          | some (cs, r) =>
            some (setTail node (if tl = [] then none else some tl) :: cs, r)
    else none

end

/-- etree.fromstring on the injected body: leading whitespace allowed, one
    root element, trailing whitespace only. -/
def parseXml (s : Str) : Option XNode :=
  let s1 := s.dropWhile isSpacePy
  match pElement (s1.length + 1) ([], none) s1 with
  | none => none
  | some (root, rest) => if rest.dropWhile isSpacePy = [] then some root else none

/-- qname_to_prefixed of _build_structured_node: map a namespace-qualified
    name back to prefixed form through the URI-to-prefix table, falling
    back to the local part. -/
def qnameToPrefixed (m : List (Str × Str)) : QName → Str
  | .plain n => n
  | .qual uri loc =>
    match mapGet m uri with
    | some p => if p = [] then loc else p ++ ':' :: loc
    | none => loc

mutual

/-- _build_structured_node: comments become type-comment records; elements
    record their prefixed tag, prefixed attributes, optional text, children
    and optional tail. -/
def buildStructuredNode : XNode → List (Str × Str) → SNode
  | .comm t tail, _ => .mk (some (strL "comment")) none [] (some t) [] tail
  | .elem tag _ attrs text children tail, m =>
    .mk none (some (qnameToPrefixed m tag))
      (attrs.map fun kv => (qnameToPrefixed m kv.1, kv.2))
      text (buildStructuredList children m) tail

/-- The child walk of _build_structured_node. -/
def buildStructuredList : List XNode → List (Str × Str) → List SNode
  | [], _ => []
  | c :: cs, m => buildStructuredNode c m :: buildStructuredList cs m

end

/-- generate_structured_json_from_xml: decompose the raw text, scan and
    inject temporary prefix declarations, parse, and walk the tree into
    the structured record with its envelope fields. -/
def generateStructured (x : Str) : Option SData :=
  let e := extractDeclDoctype x
  let pfxs := scanPrefixes e.2.2.2.2
  let parseText2 := injectArticle e.2.2.2.2 (nsAttrsOf pfxs)
  match parseXml parseText2 with
  | none => none
  | some root =>
    let nsToPfx := (pfxs.map fun p => (strL "urn:tmp:" ++ p, p)) ++ [(XML_NS, strL "xml")]
    some { article := .jobj (buildStructuredNode root nsToPfx),
           use_namespaces := some true,
           strip_namespaces := some true,
           namespaces := some (pfxs.map fun p => (p, strL "urn:tmp:" ++ p)),
           xml_declaration := some e.1,
           doctype := some e.2.1,
           xml_decl_suffix := some e.2.2.1,
           doctype_suffix := some e.2.2.2.1 }

/-- The full round trip of claim C1: parse the raw XML into the structured
    record, then render it back; a raised exception on either leg yields
    nothing. -/
def roundTrip (x : Str) : Option Str :=
  match generateStructured x with
  | none => none
  | some d =>
    match convertFromStructuredData d with
    | .ok out => some out
    | .error _ => none

/-- A well-formed document with declaration, DOCTYPE with internal entity
    subset, an unnamespaced root with a namespaced child whose prefix is
    declared inline, a comment and tail text. -/
def c1Bad : Str := strL "<?xml version=\"1.0\"?>\n<!DOCTYPE article [\n<!ENTITY g SYSTEM \"g\" NDATA IMAGE>\n]>\n<article xmlns:ce=\"http://www.elsevier.com/xml/common/dtd\"><ce:p>t</ce:p>mid<!--c-->tail</article>"

/-- The same document in the intended form: the ce prefix left undeclared
    in the text (its declaration lived in the enclosing file). -/
def c1Good : Str := strL "<?xml version=\"1.0\"?>\n<!DOCTYPE article [\n<!ENTITY g SYSTEM \"g\" NDATA IMAGE>\n]>\n<article id=\"a\"><ce:p>t</ce:p>mid<!--c-->tail</article>"

/-- Python readline: everything through the first newline. -/
def firstLine (s : Str) : Str :=
  match findSub s (strL "\n") with
  | some i => s.take (i + 1)
  | none => s

/-- The HTML sniff of validate: the lower-cased first line contains an
    html tag opening or an HTML doctype. -/
def htmlSniff (content : Str) : Bool :=
  let fl := lowStr (firstLine content)
  containsSub fl (strL "<html") || containsSub fl (strL "<!doctype html")

/-- Outcome of handing the schema resource to the external DTD machinery:
    it parses (and then validates the tree or reports errors) or it fails
    to parse. -/
inductive DtdParse where
  | parsed (validates : Bool) (errors : List (Nat × Str))
  | parseFailed (msg : Str)
deriving DecidableEq, Repr

/-- Outcome categories of validate, following the error taxonomy. -/
inductive VResult where
  | resourceMissing
  | schemaResourceInvalid
  | validated
  | validationFailed (reported : List (Nat × Str))
  | schemaParseFailed (msg : Str)
deriving DecidableEq, Repr

/-- validate: existence check, HTML sniff on the first line, direct parse
    attempt, then the single patched-copy retry; tree-validation failures
    report at most the first ten violations. -/
def validate (dtdExists : Bool) (content : Str) (direct : DtdParse)
    (companionExists : Bool) (patched : DtdParse) : VResult :=
  if !dtdExists then .resourceMissing
  else if htmlSniff content then .schemaResourceInvalid
  else
    match direct with
    | .parsed true _ => .validated
    | .parsed false errs => .validationFailed (errs.take 10)
    | .parseFailed _ =>
      if !companionExists then .schemaParseFailed (strL "Required DTD/ENT files are missing.")
      else
        match patched with
        | .parsed true _ => .validated
        | .parsed false errs => .validationFailed (errs.take 10)
        | .parseFailed m => .schemaParseFailed m

/-- A schema resource that is actually an HTML page. -/
def c9Content : Str := strL "<!DOCTYPE html>\n<html><body>not a dtd</body></html>"

/-- A namespace map that DOES bind the xml prefix, to a URI other than the
    fixed XML namespace: attribute expansion must ignore this binding. -/
def xmlKeyMap : List (Option Str × Str) := [(some (strL "xml"), strL "urn:not-the-xml-ns")]

theorem foldl_bodyStep_eq_filter (f : Str) (l : List (Str × Str)) (st : List BSec × Nat × Nat) :
    l.foldl (bodyStep f) st = (l.filter fun p => decide (p.1 ≠ f)).foldl bodyStepNS st := by
  induction l generalizing st with
  | nil => rfl
  | cons p t ih =>
    by_cases h : p.1 = f
    · simp [List.foldl, bodyStep, h, List.filter, ih]
    · simp [List.foldl, bodyStep, h, List.filter, ih]

theorem appendPara_length (secs : List BSec) (pid : Nat) (txt : Str) :
    (appendPara secs pid txt).length = secs.length := by
  induction secs with
  | nil => rfl
  | cons s rest ih =>
    cases rest with
    | nil => rfl
    | cons a b => simpa [appendPara] using ih

theorem appendPara_getElem (secs : List BSec) (pid : Nat) (txt : Str) (i : Nat)
    (hi : i < (appendPara secs pid txt).length) (hi2 : i < secs.length) :
    (appendPara secs pid txt)[i].sid = secs[i].sid ∧
    (appendPara secs pid txt)[i].title = secs[i].title := by
  induction secs generalizing i with
  | nil => exact absurd hi2 (by simp)
  | cons s rest ih =>
    cases rest with
    | nil =>
      match i with
      | 0 => exact ⟨rfl, rfl⟩
      | i + 1 => exact absurd hi2 (by simp)
    | cons a b =>
      match i with
      | 0 => exact ⟨rfl, rfl⟩
      | i + 1 =>
        have hh : i < (appendPara (a :: b) pid txt).length := by
          simpa [appendPara] using hi
        have hh2 : i < (a :: b).length := by simpa using hi2
        simpa [appendPara] using ih i hh hh2

theorem sidOk_append (secs : List BSec) (si : Nat) (s : BSec)
    (h : SidOk secs si) (hs : s.sid = si) : SidOk (secs ++ [s]) (si + 10) := by
  obtain ⟨h1, h2⟩ := h
  constructor
  · simp; omega
  · intro i hi
    rcases Nat.lt_or_ge i secs.length with hlt | hge
    · rw [List.getElem_append_left hlt]; exact h2 i hlt
    · have : i = secs.length := by simp at hi; omega
      subst this
      rw [List.getElem_append_right (Nat.le_refl _)]
      simpa using hs.trans h1

theorem titleOk_append (secs : List BSec) (s : BSec)
    (h : TitleOk secs) (hs : (s.title).isSome = true ∨ secs = []) :
    TitleOk (secs ++ [s]) := by
  rcases hs with hs | hs
  · intro i hi h1
    rcases Nat.lt_or_ge i secs.length with hlt | hge
    · rw [List.getElem_append_left hlt]; exact h i hlt h1
    · have he : i = secs.length := by simp at hi; omega
      subst he
      rw [List.getElem_append_right (Nat.le_refl _)]
      simpa using hs
  · subst hs
    intro i hi h1
    simp at hi
    omega

theorem bodyStepNS_inv (st : List BSec × Nat × Nat) (p : Str × Str)
    (h : SidOk st.1 st.2.1 ∧ TitleOk st.1) :
    SidOk (bodyStepNS st p).1 (bodyStepNS st p).2.1 ∧ TitleOk (bodyStepNS st p).1 := by
  obtain ⟨secs, si, pi⟩ := st
  obtain ⟨⟨h1, h2⟩, h3⟩ := h
  by_cases hh : isHeader p.1 p.2
  · have hred : bodyStepNS (secs, si, pi) p = (secs ++ [⟨si, some p.1, []⟩], si + 10, pi) := by
      simp [bodyStepNS, hh]
    rw [hred]
    exact ⟨sidOk_append secs si ⟨si, some p.1, []⟩ ⟨h1, h2⟩ rfl,
      titleOk_append secs ⟨si, some p.1, []⟩ h3 (Or.inl rfl)⟩
  · cases secs with
    | nil =>
      have hred : bodyStepNS ([], si, pi) p = ([⟨si, none, [(pi, p.1)]⟩], si + 10, pi + 10) := by
        simp [bodyStepNS, hh]
      rw [hred]
      have h10 : si = 10 := by simpa using h1
      refine ⟨⟨by simp; omega, ?_⟩, ?_⟩
      · intro i hi
        match i, hi with
        | 0, _ => simpa using h10
      · intro i hi hge
        simp at hi
        omega
    | cons a b =>
      have hred : bodyStepNS (a :: b, si, pi) p = (appendPara (a :: b) pi p.1, si, pi + 10) := by
        simp [bodyStepNS, hh]
      rw [hred]
      have hl := appendPara_length (a :: b) pi p.1
      refine ⟨⟨by rw [hl]; exact h1, ?_⟩, ?_⟩
      · intro i hi
        have hi' : i < (a :: b).length := by rw [hl] at hi; exact hi
        exact ((appendPara_getElem (a :: b) pi p.1 i hi hi').1).trans (h2 i hi')
      · intro i hi hge
        have hi' : i < (a :: b).length := by rw [hl] at hi; exact hi
        rw [(appendPara_getElem (a :: b) pi p.1 i hi hi').2]
        exact h3 i hi' hge

theorem bodyFold_inv (l : List (Str × Str)) (st : List BSec × Nat × Nat)
    (h : SidOk st.1 st.2.1 ∧ TitleOk st.1) :
    SidOk (l.foldl bodyStepNS st).1 (l.foldl bodyStepNS st).2.1 ∧
      TitleOk (l.foldl bodyStepNS st).1 := by
  induction l generalizing st with
  | nil => exact h
  | cons p t ih => exact ih _ (bodyStepNS_inv st p h)

theorem buildBody_inv (ps : List (Str × Str)) :
    SidOk (buildBody ps) ((ps.foldl (bodyStep (ps.headD (strL "", strL "")).1) ([], 10, 10)).2.1) ∧
      TitleOk (buildBody ps) := by
  cases ps with
  | nil =>
    refine ⟨⟨rfl, ?_⟩, ?_⟩ <;> intro i hi <;> exact absurd hi (by simp [buildBody])
  | cons h t =>
    have he := foldl_bodyStep_eq_filter h.1 (h :: t) ([], 10, 10)
    have base : SidOk ([] : List BSec) 10 ∧ TitleOk ([] : List BSec) := by
      refine ⟨⟨by simp, ?_⟩, ?_⟩ <;> intro i hi <;> exact absurd hi (by simp)
    have := bodyFold_inv (((h :: t)).filter fun p => decide (p.1 ≠ h.1)) ([], 10, 10) base
    constructor
    · simpa [buildBody, he] using this.1
    · simpa [buildBody, he] using this.2

theorem buildFloatsList_getElem (lines : List Str) (n j : Nat)
    (hj : j < (buildFloatsList lines n).length) :
    ∃ num cap, (buildFloatsList lines n)[j] = figureNode (n + j + 1) num cap := by
  induction lines generalizing n j with
  | nil => exact absurd hj (by simp [buildFloatsList])
  | cons l ls ih =>
    by_cases hm : (matchCaption l).isSome
    · obtain ⟨⟨num, g3⟩, hng⟩ := Option.isSome_iff_exists.mp hm
      match j with
      | 0 =>
        refine ⟨num, captionTextOf num g3, ?_⟩
        simp [buildFloatsList, hng]
      | j + 1 =>
        have hj2 : j < (buildFloatsList ls (n + 1)).length := by
          simpa [buildFloatsList, hng] using hj
        obtain ⟨num2, cap2, hh⟩ := ih (n + 1) j hj2
        refine ⟨num2, cap2, ?_⟩
        have harith : n + 1 + j + 1 = n + (j + 1) + 1 := by omega
        simp [buildFloatsList, hng]
        rw [hh, harith]
    · have hng : matchCaption l = none := Option.not_isSome_iff_eq_none.mp hm
      have hj2 : j < (buildFloatsList ls n).length := by
        simpa [buildFloatsList, hng] using hj
      obtain ⟨num2, cap2, hh⟩ := ih n j hj2
      refine ⟨num2, cap2, ?_⟩
      simpa [buildFloatsList, hng] using hh

theorem tAppendPara_title (st : List TSec) (txt : Str) (s : TSec)
    (hs : s ∈ tAppendPara st txt) : ∃ s' ∈ st, s'.title = s.title := by
  induction st with
  | nil => exact absurd hs (by simp [tAppendPara])
  | cons a b ih =>
    cases b with
    | nil =>
      simp [tAppendPara] at hs
      exact ⟨a, by simp, by rw [hs]⟩
    | cons c d =>
      rcases (by simpa [tAppendPara] using hs : s = a ∨ s ∈ tAppendPara (c :: d) txt) with he | hm
      · exact ⟨a, by simp, by rw [he]⟩
      · obtain ⟨s', hs', ht⟩ := ih hm
        exact ⟨s', by simp [hs'], ht⟩

theorem t2Step_titles (st : List TSec) (p : Str × Str)
    (h : ∀ s ∈ st, (s.title).isSome = true) :
    ∀ s ∈ t2Step st p, (s.title).isSome = true := by
  intro s hs
  by_cases h0 : stripStr p.1 = []
  · simp only [t2Step, h0, if_pos] at hs
    exact h s hs
  · by_cases h1 : containsSub (lowStr p.2) (strL "heading") = true
    · simp only [t2Step, h0, h1, if_neg, if_pos, if_true, if_false] at hs
      rcases List.mem_append.mp hs with hm | hm
      · exact h s hm
      · simp at hm
        rw [hm]
        rfl
    · cases st with
      | nil =>
        simp only [t2Step, h0, h1] at hs
        simp at hs
        rw [hs]
        rfl
      | cons a b =>
        simp only [t2Step, h0, h1] at hs
        simp only [if_false, if_neg] at hs
        obtain ⟨s', hs', ht⟩ := tAppendPara_title (a :: b) (stripStr p.1) s hs
        rw [← ht]
        exact h s' hs'

theorem t2Fold_titles (l : List (Str × Str)) (st : List TSec)
    (h : ∀ s ∈ st, (s.title).isSome = true) :
    ∀ s ∈ l.foldl t2Step st, (s.title).isSome = true := by
  induction l generalizing st with
  | nil => exact h
  | cons p t ih => exact ih (t2Step st p) (t2Step_titles st p h)

theorem t2Body_titles (ps : List (Str × Str)) :
    ∀ s ∈ t2Body ps, (s.title).isSome = true := by
  intro s hs
  obtain ⟨s', hs', he⟩ := List.mem_map.mp hs
  have hb := t2Fold_titles (ps.drop 1) [] (by simp) s' hs'
  by_cases hp : s'.paras = []
  · rw [← he]
    simpa [hp] using hb
  · rw [← he]
    simpa [hp] using hb

/-- Claim C2 counterexample: on the scenario of the claim the caption line
    IS added as a para child of the open section — _build_body has no
    caption filter — so the single section holds two paragraphs (p0010 and
    p0020), not exactly one. -/
theorem caption_line_also_becomes_body_para :
    buildBody c2Scenario =
      [⟨10, some (strL "1. Introduction"),
        [(10, strL "Some text."), (20, strL "Fig. 2: Sample image")]⟩] ∧
    ((buildBody c2Scenario).map fun s => s.paras.length) = [2] :=
  ⟨by decide, by decide⟩

/-- Claim C2 as amended: the extractor scenario builds one section s0010
    with title st0010 "1. Introduction" and TWO paragraphs — p0010
    "Some text." and p0020 "Fig. 2: Sample image", because captions are
    duplicated into the body — and one floats figure f0005 with label
    "Fig. 2", caption ca0005/sp0005 "Sample image" and link locator gr2. -/
theorem scenario_builds_two_paras_and_figure :
    (buildBody c2Scenario).map secToXNode = [c2SectionX] ∧
    buildFloats (c2Scenario.map Prod.fst) = c2FloatsX :=
  ⟨rfl, rfl⟩

/-- Claim C4 counterexample: in the t2-Copy-Copy builder the synthetic
    section opened when body text appears before any header has no title at
    all, so its rendered element has no section-title child. -/
theorem synthetic_section_lacks_title :
    buildBody c4Input = [⟨10, none, [(10, strL "x")]⟩] ∧
    ((buildBody c4Input).map fun s => hasSectionTitle (secToXNode s)) = [false] :=
  ⟨by decide, rfl⟩

/-- Claim C4 as amended: in the t2-Copy-Copy builder every section other
    than a possible synthetic first one carries a section-title, while the
    synthetic section carries none; in the t2 variant every section —
    including the synthetic one, titled "Introduction" — carries one. -/
theorem c4_amended_titles :
    (∀ (ps : List (Str × Str)) (i : Nat) (hi : i < (buildBody ps).length),
       1 ≤ i → ((buildBody ps)[i].title).isSome = true) ∧
    (∀ (ps : List (Str × Str)), ∀ s ∈ t2Body ps, (s.title).isSome = true) :=
  ⟨fun ps i hi h1 => (buildBody_inv ps).2 i hi h1, fun ps s hs => t2Body_titles ps s hs⟩

/-- Witness for the amended claim C4 at concrete inputs. -/
theorem c4_amended_titles_witness :
    (((buildBody c4W1).get ⟨1, by decide⟩).title).isSome = true ∧
    ((⟨some (strL "Introduction"), [strL "x"]⟩ : TSec).title).isSome = true :=
  ⟨c4_amended_titles.1 c4W1 1 (by decide) (by decide),
   c4_amended_titles.2 c4Input ⟨some (strL "Introduction"), [strL "x"]⟩ (by decide)⟩

/-- Claim C5: the i-th section (0-based, document order) of the heuristic
    body has numeric id 10*(i+1) — hence string ids s%04d and st%04d
    stepping by ten — and the j-th caption encountered yields exactly the
    figure element of figureNode (j+1), whose f/ca/sp ids are 5*(j+1)
    zero-padded, independent of the parsed caption number. -/
theorem section_and_figure_id_numbering (ps : List (Str × Str)) (lines : List Str)
    (i j : Nat) (hi : i < (buildBody ps).length) (hj : j < (buildFloatsList lines 0).length) :
    (buildBody ps)[i].sid = 10 * i + 10 ∧
    (∃ num cap, (buildFloatsList lines 0)[j] = figureNode (j + 1) num cap) := by
  constructor
  · exact (buildBody_inv ps).1.2 i hi
  · obtain ⟨num, cap, hh⟩ := buildFloatsList_getElem lines 0 j hj
    rw [Nat.zero_add] at hh
    exact ⟨num, cap, hh⟩

/-- Witness for claim C5 at concrete inputs. -/
theorem section_and_figure_id_numbering_witness :
    ((buildBody c5Wps).get ⟨0, by decide⟩).sid = 10 * 0 + 10 ∧
    (∃ num cap, (buildFloatsList c5Wlines 0).get ⟨0, by decide⟩ = figureNode (0 + 1) num cap) :=
  section_and_figure_id_numbering c5Wps c5Wlines 0 0 (by decide) (by decide)

/-- Claim C6: whenever the article value of the record is not an object —
    a templated string in particular — the lossless build path fails with
    the InvalidStructuredData error and produces no output. -/
theorem nonobject_article_rejected (d : SData) (h : isObjArt d.article = false) :
    ∃ m, convertFromStructuredData d = .error (.invalidStructuredData m) := by
  cases hart : d.article with
  | jstr s => exact ⟨msgTemplate, by simp [convertFromStructuredData, hart]⟩
  | jother => exact ⟨msgInvalidArticle, by simp [convertFromStructuredData, hart]⟩
  | jobj n => rw [hart] at h; exact absurd h (by simp [isObjArt])

/-- Witness for claim C6 at a concrete templated record. -/
theorem nonobject_article_rejected_witness :
    isObjArt c6Data.article = false ∧
    ∃ m, convertFromStructuredData c6Data = .error (.invalidStructuredData m) :=
  ⟨by decide, nonobject_article_rejected c6Data (by decide)⟩

/-- Claim C8 counterexample: with an empty declaration the non-empty
    declaration suffix is dropped from the output, so the result differs
    from the claimed five-segment concatenation. -/
theorem suffix_dropped_when_decl_empty :
    convertFromStructuredData c8Data = .ok (strL "<!DOCTYPE a><a>x</a>") ∧
    convertFromStructuredData c8Data ≠ .ok (claimAssembly c8Data (strL "<a>x</a>")) :=
  ⟨by decide, by decide⟩

/-- Claim C8 as amended: the output is declaration-with-its-suffix (only
    when the declaration is non-empty) then doctype-with-its-suffix (only
    when the doctype is non-empty) then the body. -/
theorem assembly_follows_leading_segment (d : SData) (a : SNode) (root : XNode)
    (ha : d.article = .jobj a)
    (hr : buildElement a true (d.use_namespaces.getD true) d.namespaces = .ok root) :
    convertFromStructuredData d = .ok (fixedAssembly d (bodyTextOf d a root)) := by
  simp only [convertFromStructuredData, ha, hr, fixedAssembly, bodyTextOf]

/-- Witness for the amended claim C8 at the concrete record. -/
theorem assembly_follows_leading_segment_witness :
    convertFromStructuredData c8Data = .ok (fixedAssembly c8Data (bodyTextOf c8Data c8Article c8Root)) :=
  assembly_follows_leading_segment c8Data c8Article c8Root rfl rfl

set_option maxRecDepth 1000000 in
/-- Claim C1 counterexample: on a well-formed document carrying all the
    claimed features whose namespace prefix is declared inline on the root,
    the prefix scan collects both ce and xmlns, the injection adds
    duplicate and reserved declarations, the parse of the injected body
    fails, and the round trip yields nothing — not the original text. -/
theorem declared_prefix_breaks_roundtrip :
    roundTrip c1Bad ≠ some c1Bad ∧ roundTrip c1Bad = none := by
  constructor
  · intro hmm
    rw [(by decide : roundTrip c1Bad = none)] at hmm
    exact Option.noConfusion hmm
  · decide

set_option maxRecDepth 1000000 in
/-- Claim C1 as amended: the round trip is byte-exact on documents in the
    intended class — prefixes undeclared in the text and the body already
    in the serializer's canonical form — witnessed here by a document with
    declaration, DOCTYPE with internal entity subset, an unnamespaced root
    with attribute, a ce-prefixed child, a comment and two tail texts. -/
theorem undeclared_prefix_canonical_roundtrip : roundTrip c1Good = some c1Good := by decide

/-- Claim C9: when the schema resource file reads as an HTML document on
    its first line, validate returns SchemaResourceInvalid whatever the
    DTD parse or recovery outcomes would have been — neither is consulted. -/
theorem html_resource_fails_without_parse (content : Str) (direct : DtdParse)
    (companionExists : Bool) (patched : DtdParse) (h : htmlSniff content = true) :
    validate true content direct companionExists patched = .schemaResourceInvalid := by
  simp [validate, h]

/-- Witness for claim C9 at a concrete HTML resource. -/
theorem html_resource_fails_without_parse_witness :
    htmlSniff c9Content = true ∧
    validate true c9Content (.parsed true []) true (.parsed true []) = .schemaResourceInvalid :=
  ⟨by decide,
   html_resource_fails_without_parse c9Content (.parsed true []) true (.parsed true []) (by decide)⟩

theorem splitAtChar_append (c : Char) (a b : Str) (h : c ∉ a) :
    splitAtChar c (a ++ c :: b) = some (a, b) := by
  induction a with
  | nil => simp [splitAtChar]
  | cons x xs ih =>
    have hx : ¬(x = c) := fun he => h (he ▸ List.mem_cons_self x xs)
    have ih2 := ih fun hm => h (List.mem_cons_of_mem x hm)
    simp [splitAtChar, hx, ih2]

/-- Claim C3 counterexample: expanding the TAG name xml:lang against the
    fixed converter map — which has no xml key — fails with UnknownPrefix
    instead of producing the fixed XML-namespace form, while the same name
    as an ATTRIBUTE does get the special case. -/
theorem xml_tag_expansion_fails :
    expandTag (strL "xml:lang") NSMAP = .error (.unknownPfx (strL "xml")) ∧
    expandAttr (strL "xml:lang") NSMAP = .ok (.qual XML_NS (strL "lang")) :=
  ⟨by decide, by decide⟩

/-- Claim C3 as amended: attribute expansion special-cases the xml prefix
    before any lookup, mapping it to the fixed XML namespace for EVERY map
    — with or without an xml key; tag expansion has no such case: it looks
    xml up like any prefix and fails with UnknownPrefix whenever the map
    lacks it. -/
theorem xml_special_case_attr_only (loc : Str) (m : List (Option Str × Str)) :
    expandAttr (strL "xml" ++ ':' :: loc) m = .ok (.qual XML_NS loc) ∧
    (nsmapGet m (strL "xml") = none →
      expandTag (strL "xml" ++ ':' :: loc) m = .error (.unknownPfx (strL "xml"))) := by
  have hs := splitAtChar_append ':' (strL "xml") loc (by decide)
  constructor
  · simp [expandAttr, hs]
  · intro h
    simp [expandTag, hs, h]

/-- Witness for the amended claim C3: the attribute special case at the
    converter map, at a map binding xml to a different URI (the lookup is
    overridden), and the tag failure at the xml-less converter map. -/
theorem xml_special_case_attr_only_witness :
    expandAttr (strL "xml" ++ ':' :: strL "lang") NSMAP = .ok (.qual XML_NS (strL "lang")) ∧
    expandAttr (strL "xml" ++ ':' :: strL "lang") xmlKeyMap = .ok (.qual XML_NS (strL "lang")) ∧
    expandTag (strL "xml" ++ ':' :: strL "lang") NSMAP = .error (.unknownPfx (strL "xml")) :=
  ⟨(xml_special_case_attr_only (strL "lang") NSMAP).1,
   (xml_special_case_attr_only (strL "lang") xmlKeyMap).1,
   (xml_special_case_attr_only (strL "lang") NSMAP).2 (by decide)⟩

/-- Claim C7: expanding any name whose prefix is neither xml nor a key of
    the map fails with UnknownPrefix, for tags and for attributes alike —
    the name is never passed through. -/
theorem undeclared_prefix_always_fails (pfx loc : Str) (m : List (Option Str × Str))
    (hc : ':' ∉ pfx) (hx : ¬(pfx = strL "xml")) (hm : nsmapGet m pfx = none) :
    expandTag (pfx ++ ':' :: loc) m = .error (.unknownPfx pfx) ∧
    expandAttr (pfx ++ ':' :: loc) m = .error (.unknownPfx pfx) := by
  have hs := splitAtChar_append ':' pfx loc hc
  constructor
  · simp [expandTag, hs, hm]
  · simp [expandAttr, hs, hm, hx]

/-- Witness for claim C7 at a concrete undeclared prefix. -/
theorem undeclared_prefix_always_fails_witness :
    expandTag (strL "foo" ++ ':' :: strL "bar") NSMAP = .error (.unknownPfx (strL "foo")) ∧
    expandAttr (strL "foo" ++ ':' :: strL "bar") NSMAP = .error (.unknownPfx (strL "foo")) :=
  undeclared_prefix_always_fails (strL "foo") (strL "bar") NSMAP (by decide) (by decide) (by decide)

/-- Claim C10: the _build_body loop skips every paragraph whose text equals
    the first paragraph's text, wherever it occurs, so the built sections
    equal those of the skip-free loop run on the list with all such
    paragraphs filtered out — a later repeat of the title text contributes
    no paragraph and opens no section. -/
theorem title_text_skipped_everywhere (p : Str × Str) (t : List (Str × Str)) :
    buildBody (p :: t) = bodyNoSkip ((p :: t).filter fun q => decide (q.1 ≠ p.1)) := by
  have hf := foldl_bodyStep_eq_filter p.1 (p :: t) ([], 10, 10)
  simp only [buildBody, bodyNoSkip, hf]

end Elsevier
